import Mathlib

/-!
Verification of the result-assembly / snapshot-cache layer of the
multi-modal bird search backend (`backend/main.py`).

The embedding below translates the relevant Python functions into Lean:

* payloads are records of optional fields (a Python `dict` accessed via
  `.get`, which yields `None` for a missing key);
* the three in-memory caches (`ALL_TEXT_DATA`, `ALL_IMAGE_DATA`,
  `ALL_AUDIO_DATA`) are association lists with Python-`dict` insertion
  semantics (later insert for an existing key overwrites in place);
* the Qdrant `scroll` call made by each loader is modelled by an
  `Except` value: `.ok points` is a successful scroll returning the
  page of points, `.error e` is any raised exception, which the
  loaders catch and turn into an empty mapping;
* similarity scores are carried through opaquely; since no claim
  depends on floating-point arithmetic they are modelled as `Int`
  (the code only does `float(search_result.score)`, a cast).
-/

/-- A Qdrant point payload, as accessed through `payload.get(key)`:
every field is optional, `none` modelling a missing key. -/
structure Payload where
  bird_id : Option Int := none
  species_name : Option String := none
  scientific_name : Option String := none
  family : Option String := none
  searchable_text : Option String := none
  size : Option String := none
  clip_path : Option String := none
  audio_url : Option String := none
  deriving Repr, DecidableEq

/-- A raw similarity-search hit: `search_result.payload` and
`search_result.score`. -/
structure SearchHit where
  payload : Payload
  score : Int := 0
  deriving Repr, DecidableEq

/-- Python `dict` lookup `d.get(k)` on an association list (first
matching key wins; inserts below keep at most one entry per key). -/
def dictGet {α : Type} (d : List (Option Int × α)) (k : Option Int) : Option α :=
  match d with
  | [] => none
  | (k', v) :: rest => if k' = k then some v else dictGet rest k

/-- Python `dict` insertion `d[k] = v`: overwrite in place when the key
exists, append otherwise (insertion-ordered dict semantics). -/
def dictInsert {α : Type} (d : List (Option Int × α)) (k : Option Int) (v : α) :
    List (Option Int × α) :=
  match d with
  | [] => [(k, v)]
  | (k', v') :: rest =>
    if k' = k then (k, v) :: rest else (k', v') :: dictInsert rest k v

/-- The grouping idiom of the image/audio loaders:
`if bird_id not in data: data[bird_id] = []` followed by
`data[bird_id].append(payload)`. -/
def groupInsert (d : List (Option Int × List Payload)) (k : Option Int) (v : Payload) :
    List (Option Int × List Payload) :=
  match d with
  | [] => [(k, [v])]
  | (k', vs) :: rest =>
    if k' = k then (k, vs ++ [v]) :: rest else (k', vs) :: groupInsert rest k v

/-- Python truthiness of a `str`-or-`None` value: `None` and `""` are
falsy, every other string truthy. -/
def truthy (o : Option String) : Bool :=
  match o with
  | none => false
  | some s => s ≠ ""

/-- Python `a or b` where `a` is a `str`-or-`None` expression and `b` a
`str`: yields `b` when `a` is `None` or the empty string. -/
def pyOr (a : Option String) (b : String) : String :=
  match a with
  | none => b
  | some s => if s = "" then b else s

/-- `text_info.get(key, default)` where `text_info` is either the cached
dict for the entity or the empty dict `{}` (modelled as `none`): the
default is returned only when the dict is empty or the key missing. -/
def dictGetD (t : Option Payload) (f : Payload → Option String) (d : String) : String :=
  match t with
  | none => d
  | some p => (f p).getD d

/-- Python `s.replace(" ", "_")` (single-character pattern, so a
character-wise map). -/
def underscoreSpaces (s : String) : String :=
  String.mk (s.toList.map fun c => if c = ' ' then '_' else c)

/-- Python `str.split(sep)` for a single-character separator, on the
character list: `"".split(sep)` is `[""]`, and n separators produce
n+1 (possibly empty) parts. -/
def pySplit (c : Char) : List Char → List (List Char)
  | [] => [[]]
  | a :: rest =>
    match pySplit c rest with
    | [] => if a = c then [[], []] else [[a]]
    | h :: t => if a = c then [] :: h :: t else (a :: h) :: t

/-- Python `parts[-1]` on a split result (split results are never
empty, so the default is never used). -/
def lastPart (c : Char) (s : String) : String :=
  String.mk ((pySplit c s.toList).getLastD [])

/-- `payload["clip_path"].split("\\")[-1].split("/")[-1]` from
`get_all_audio_data`. -/
def clipFilename (s : String) : String :=
  lastPart '/' (lastPart '\\' s)

/-- The per-point enrichment in `get_all_audio_data`:
`payload = point.payload.copy()`, then if `payload.get("clip_path")` is
truthy, set `payload["audio_url"]` from the clip filename. -/
def enrichAudioPayload (p : Payload) : Payload :=
  if truthy p.clip_path then
    { p with
        audio_url :=
          some ("http://localhost:8000/audio/" ++ clipFilename ((p.clip_path).getD "")) }
  else p

/-- The result of a `scroll` call: the page of point payloads, or the
exception the loader catches. -/
abbrev ScrollResult : Type := Except String (List Payload)

/-- `get_all_text_data`: on success, the dict comprehension
`{point.payload.get("bird_id"): point.payload for point in results[0]}`;
on any exception, the empty mapping. -/
def get_all_text_data (scroll : ScrollResult) : List (Option Int × Payload) :=
  match scroll with
  | .error _ => []
  | .ok points => points.foldl (fun d p => dictInsert d p.bird_id p) []

/-- `get_all_image_data`: group payloads by `bird_id` in scroll order;
empty mapping on any exception. -/
def get_all_image_data (scroll : ScrollResult) : List (Option Int × List Payload) :=
  match scroll with
  | .error _ => []
  | .ok points => points.foldl (fun d p => groupInsert d p.bird_id p) []

/-- `get_all_audio_data`: as `get_all_image_data` but each payload gets
the derived `audio_url` first; empty mapping on any exception. -/
def get_all_audio_data (scroll : ScrollResult) : List (Option Int × List Payload) :=
  match scroll with
  | .error _ => []
  | .ok points =>
    points.foldl (fun d p => groupInsert d p.bird_id (enrichAudioPayload p)) []

/-- The three process-global cache mappings `ALL_TEXT_DATA`,
`ALL_IMAGE_DATA`, `ALL_AUDIO_DATA`. -/
structure CacheState where
  text : List (Option Int × Payload)
  images : List (Option Int × List Payload)
  audio : List (Option Int × List Payload)
  deriving Repr, DecidableEq

/-- `refresh_cache`: re-run the three loaders on the store's current
scroll responses and wholesale-assign all three globals; the previous
cache contents are discarded, not consulted. -/
def refresh_cache (st si sa : ScrollResult) (_old : CacheState) : CacheState :=
  { text := get_all_text_data st
    images := get_all_image_data si
    audio := get_all_audio_data sa }

/-- The denormalized record built by `create_comprehensive_result`
(fields that the code sets to constants are kept so the embedding is a
faithful image of the returned dict). -/
structure ComprehensiveResult where
  bird_id : Int
  species_name : String
  scientific_name : String
  family : String
  confidence_score : Int
  search_match_type : String
  text_description : String
  raw_text_data : Option Payload
  habitats : String
  geographic_regions : String
  size : String
  ecology : String
  group_dynamics : String
  extract : String
  url : String
  images : List Payload
  primary_image : Option Payload
  audio_clips : List Payload
  primary_audio : Option Payload
  deriving Repr, DecidableEq

/-- `create_comprehensive_result(search_result, search_type)`: `None`
when the hit's payload has no `bird_id`; otherwise the join of the hit
with the three cache lookups for that id. -/
def create_comprehensive_result (cache : CacheState) (hit : SearchHit)
    (search_type : String) : Option ComprehensiveResult :=
  match hit.payload.bird_id with
  | none => none
  | some bid =>
    let text_info : Option Payload := dictGet cache.text (some bid)
    let images : List Payload := (dictGet cache.images (some bid)).getD []
    let audio_clips : List Payload := (dictGet cache.audio (some bid)).getD []
    some {
      bird_id := bid
      species_name := pyOr hit.payload.species_name
        (dictGetD text_info (fun p => p.species_name) "Unknown")
      scientific_name := dictGetD text_info (fun p => p.scientific_name) ""
      family := dictGetD text_info (fun p => p.family) ""
      confidence_score := hit.score
      search_match_type := search_type
      text_description := dictGetD text_info (fun p => p.searchable_text) ""
      raw_text_data := text_info
      habitats := ""
      geographic_regions := ""
      size := dictGetD text_info (fun p => p.size) ""
      ecology := ""
      group_dynamics := ""
      extract := ""
      url :=
        if truthy (text_info.bind fun p => p.species_name) then
          "https://en.wikipedia.org/wiki/" ++
            underscoreSpaces (dictGetD text_info (fun p => p.species_name) "")
        else ""
      images := images
      primary_image := images.head?
      audio_clips := audio_clips
      primary_audio := audio_clips.head? }

/-- The shared result-shaping loop of `search_by_text` and
`search_by_audio`: join every hit, dropping null joins, with no
deduplication. -/
def shapeResults (cache : CacheState) (hits : List SearchHit)
    (search_type : String) : List ComprehensiveResult :=
  hits.filterMap (fun h => create_comprehensive_result cache h search_type)

/-- The result list of `search_by_text` for a given list of raw hits. -/
def search_by_text_results (cache : CacheState) (hits : List SearchHit) :
    List ComprehensiveResult :=
  shapeResults cache hits "text"

/-- The result list of `search_by_audio` for a given list of raw hits. -/
def search_by_audio_results (cache : CacheState) (hits : List SearchHit) :
    List ComprehensiveResult :=
  shapeResults cache hits "audio"

/-- The loop body of `get_unique_birds_from_results` with its `seen`
set and accumulating output: a hit is skipped when its `bird_id` is
missing or already seen; otherwise the id is marked seen before the
join, and the joined result is kept when non-null. -/
def get_unique_birds_aux (cache : CacheState) (search_type : String)
    (seen : List Int) : List SearchHit → List ComprehensiveResult
  | [] => []
  | h :: rest =>
    match h.payload.bird_id with
    | none => get_unique_birds_aux cache search_type seen rest
    | some bid =>
      if bid ∈ seen then get_unique_birds_aux cache search_type seen rest
      else
        match create_comprehensive_result cache h search_type with
        | some r => r :: get_unique_birds_aux cache search_type (bid :: seen) rest
        | none => get_unique_birds_aux cache search_type (bid :: seen) rest

/-- `get_unique_birds_from_results(results, search_type)`. -/
def get_unique_birds_from_results (cache : CacheState) (hits : List SearchHit)
    (search_type : String) : List ComprehensiveResult :=
  get_unique_birds_aux cache search_type [] hits

/-- The result list of `search_by_image`: the store is asked for
`limit * 5` raw hits (over-fetch), which are deduplicated by entity and
truncated to `limit` (`hits` is the over-fetched raw hit list). -/
def search_by_image_results (cache : CacheState) (hits : List SearchHit)
    (limit : Nat) : List ComprehensiveResult :=
  (get_unique_birds_from_results cache hits "image").take limit

/-- Modelled from the spec: "the final path segment of the stored clip
path (handling both forward- and back-slash separators)" — the maximal
suffix of the path containing neither separator. Stated per the spec's
words, to be compared with `clipFilename`, which is translated from the
code. -/
def specFinalSegment (s : String) : String :=
  String.mk ((s.toList.reverse.takeWhile fun c => c != '\\' && c != '/').reverse)

/-! ### Helper lemmas: characterizing `pySplit`'s last part -/

theorem pySplit_ne_nil (c : Char) : ∀ l : List Char, pySplit c l ≠ []
  | [] => by simp [pySplit]
  | a :: rest => by
    have ih := pySplit_ne_nil c rest
    cases h : pySplit c rest with
    | nil => exact absurd h ih
    | cons hd tl =>
      simp only [pySplit, h]
      split <;> simp

theorem pySplit_not_mem (c : Char) : ∀ l : List Char, c ∉ l → pySplit c l = [l]
  | [], _ => rfl
  | a :: rest, h => by
    have h1 : a ≠ c := fun e => h (by simp [e])
    have h2 : c ∉ rest := fun e => h (List.mem_cons_of_mem a e)
    have ih := pySplit_not_mem c rest h2
    simp only [pySplit, ih]
    simp [h1]

theorem pySplit_mem (c : Char) :
    ∀ l : List Char, c ∈ l → ∃ hd tl, pySplit c l = hd :: tl ∧ tl ≠ []
  | [], h => absurd h (List.not_mem_nil c)
  | a :: rest, h => by
    by_cases hac : a = c
    · obtain ⟨h0, t0, hps⟩ : ∃ h0 t0, pySplit c rest = h0 :: t0 := by
        cases hr : pySplit c rest with
        | nil => exact absurd hr (pySplit_ne_nil c rest)
        | cons x xs => exact ⟨x, xs, rfl⟩
      refine ⟨[], h0 :: t0, ?_, by simp⟩
      simp [pySplit, hps, hac]
    · have hmem : c ∈ rest := by
        rcases List.mem_cons.mp h with e | e
        · exact absurd e.symm hac
        · exact e
      obtain ⟨hd', tl', hps', htl'⟩ := pySplit_mem c rest hmem
      refine ⟨a :: hd', tl', ?_, htl'⟩
      simp [pySplit, hps', hac]

theorem takeWhile_append_all {α : Type} (p : α → Bool) :
    ∀ (xs ys : List α), (∀ x ∈ xs, p x = true) →
      (xs ++ ys).takeWhile p = xs ++ ys.takeWhile p
  | [], ys, _ => by simp
  | x :: xs, ys, h => by
    have hx : p x = true := h x (by simp)
    have ih := takeWhile_append_all p xs ys (fun y hy => h y (by simp [hy]))
    simp [List.takeWhile_cons, hx, ih]

theorem takeWhile_append_stop {α : Type} (p : α → Bool) :
    ∀ (xs ys : List α), (∃ x ∈ xs, p x = false) →
      (xs ++ ys).takeWhile p = xs.takeWhile p
  | [], _, h => by simp at h
  | x :: xs, ys, h => by
    cases hx : p x with
    | false => simp [List.takeWhile_cons, hx]
    | true =>
      have hxs : ∃ y ∈ xs, p y = false := by
        obtain ⟨y, hy, hpy⟩ := h
        rcases List.mem_cons.mp hy with rfl | hy'
        · rw [hx] at hpy; cases hpy
        · exact ⟨y, hy', hpy⟩
      have ih := takeWhile_append_stop p xs ys hxs
      simp [List.takeWhile_cons, hx, ih]

theorem getLastD_default_irrel {α : Type} :
    ∀ (tl : List α), tl ≠ [] → ∀ d₁ d₂ : α, tl.getLastD d₁ = tl.getLastD d₂
  | [], h, _, _ => absurd rfl h
  | x :: xs, _, d₁, d₂ => by rw [List.getLastD_cons, List.getLastD_cons]

theorem getLastD_pySplit (c : Char) :
    ∀ l : List Char, (pySplit c l).getLastD [] =
      (l.reverse.takeWhile (fun x => x != c)).reverse
  | [] => rfl
  | a :: rest => by
    have ih := getLastD_pySplit c rest
    by_cases hmem : c ∈ rest
    · have hstop : ∃ x ∈ rest.reverse, (x != c) = false :=
        ⟨c, List.mem_reverse.mpr hmem, by simp⟩
      have hr : (a :: rest).reverse.takeWhile (fun x => x != c) =
          rest.reverse.takeWhile (fun x => x != c) := by
        rw [List.reverse_cons]
        exact takeWhile_append_stop _ _ _ hstop
      obtain ⟨hd', tl', hps', htl'⟩ := pySplit_mem c rest hmem
      by_cases hac : a = c
      · have hsp : pySplit c (a :: rest) = [] :: hd' :: tl' := by
          simp [pySplit, hps', hac]
        rw [hsp, List.getLastD_cons, ← hps', ih, hr]
      · have hsp : pySplit c (a :: rest) = (a :: hd') :: tl' := by
          simp [pySplit, hps', hac]
        rw [hsp, List.getLastD_cons,
          getLastD_default_irrel tl' htl' (a :: hd') hd',
          ← List.getLastD_cons ([] : List Char) hd' tl', ← hps', ih, hr]
    · have hrest : pySplit c rest = [rest] := pySplit_not_mem c rest hmem
      have hall : ∀ x ∈ rest.reverse, (x != c) = true := by
        intro x hx
        have hxc : x ≠ c := fun e => hmem (e ▸ List.mem_reverse.mp hx)
        simp [hxc]
      by_cases hac : a = c
      · have hsp : pySplit c (a :: rest) = [] :: [rest] := by
          simp [pySplit, hrest, hac]
        rw [hsp, List.getLastD_cons, List.reverse_cons,
          takeWhile_append_all _ _ _ hall]
        simp [List.takeWhile_cons, hac]
      · have hsp : pySplit c (a :: rest) = [a :: rest] := by
          simp [pySplit, hrest, hac]
        rw [hsp, List.reverse_cons, takeWhile_append_all _ _ _ hall]
        simp [List.takeWhile_cons, hac]

theorem takeWhile_and {α : Type} (p q : α → Bool) :
    ∀ l : List α, (l.takeWhile q).takeWhile p = l.takeWhile (fun a => q a && p a)
  | [] => rfl
  | a :: l => by
    cases hq : q a with
    | false => simp [List.takeWhile_cons, hq]
    | true =>
      cases hp : p a with
      | false => simp [List.takeWhile_cons, hq, hp]
      | true => simp [List.takeWhile_cons, hq, hp, takeWhile_and p q l]

theorem clipFilename_eq_specFinalSegment (s : String) :
    clipFilename s = specFinalSegment s := by
  have hmk : ∀ l : List Char, (String.mk l).toList = l := fun l => rfl
  unfold clipFilename lastPart specFinalSegment
  rw [getLastD_pySplit, getLastD_pySplit, hmk, List.reverse_reverse, takeWhile_and]

/-! ### Claim theorems -/

/-- C5: `refresh_cache` is idempotent — with the vector store returning
the same scroll responses, refreshing a second time leaves all three
cache mappings exactly as after the first refresh (same content, hence
same size). -/
theorem refresh_cache_idempotent (st si sa : ScrollResult) (s0 : CacheState) :
    refresh_cache st si sa (refresh_cache st si sa s0) = refresh_cache st si sa s0 :=
  rfl

/-- C6: each cache loader maps any scroll failure to the empty
mapping — the exception is absorbed, not propagated, so serving
degrades to missing enrichment data. -/
theorem loaders_absorb_errors (e : String) :
    get_all_text_data (Except.error e) = [] ∧
    get_all_image_data (Except.error e) = [] ∧
    get_all_audio_data (Except.error e) = [] :=
  ⟨rfl, rfl, rfl⟩

/-- C7: for an audio record with a non-empty stored clip path, the
derived `audio_url` is the audio-serving base URL followed by the final
path segment of the clip path, where the final segment is taken
handling both back-slash and forward-slash separators
(`specFinalSegment`). -/
theorem audio_url_is_final_path_segment (p : Payload) (s : String)
    (hclip : p.clip_path = some s) (hne : s ≠ "") :
    (enrichAudioPayload p).audio_url =
      some ("http://localhost:8000/audio/" ++ specFinalSegment s) := by
  unfold enrichAudioPayload
  rw [hclip]
  simp [truthy, hne, clipFilename_eq_specFinalSegment]

/-- C7 witness: the stored path `C:\clips\sparrow_01.wav` derives the
filename segment `sparrow_01.wav`. -/
theorem audio_url_is_final_path_segment_witness :
    (enrichAudioPayload { clip_path := some "C:\\clips\\sparrow_01.wav" }).audio_url =
      some "http://localhost:8000/audio/sparrow_01.wav" := by
  rw [audio_url_is_final_path_segment
    { clip_path := some "C:\\clips\\sparrow_01.wav" } "C:\\clips\\sparrow_01.wav"
    rfl (by decide)]
  rfl

/-- C1: the join returns null exactly when the hit's payload has no
entity id; and for an extractable entity id absent from the text cache,
with no species name on the hit's own payload, it returns a non-null
result with species name "Unknown" and empty scientific_name/family
(totality of the Lean function models "never raises"). -/
theorem join_null_iff_no_entity_id (cache : CacheState) (hit : SearchHit)
    (ty : String) :
    (create_comprehensive_result cache hit ty = none ↔ hit.payload.bird_id = none) ∧
    (∀ i : Int, hit.payload.bird_id = some i →
      dictGet cache.text (some i) = none →
      hit.payload.species_name = none →
      ∃ r, create_comprehensive_result cache hit ty = some r ∧
        r.species_name = "Unknown" ∧ r.scientific_name = "" ∧ r.family = "") := by
  constructor
  · cases h : hit.payload.bird_id <;>
      simp [create_comprehensive_result, h]
  · intro i hi htext hsn
    simp only [create_comprehensive_result, hi]
    exact ⟨_, rfl, by simp [htext, hsn, pyOr, dictGetD],
      by simp [htext, dictGetD], by simp [htext, dictGetD]⟩

/-- C1 witness: with all caches empty and a hit whose payload has
entity id 5 and nothing else, the join yields a defaulted result. -/
theorem join_null_iff_no_entity_id_witness :
    ∃ r, create_comprehensive_result ⟨[], [], []⟩
        { payload := { bird_id := some 5 } } "text" = some r ∧
      r.species_name = "Unknown" ∧ r.scientific_name = "" ∧ r.family = "" :=
  (join_null_iff_no_entity_id ⟨[], [], []⟩ { payload := { bird_id := some 5 } }
    "text").2 5 rfl rfl rfl

/-- C8: in every joined result, the images (resp. audio_clips) field is
exactly the cached list for the entity (not re-sorted), and
primary_image (resp. primary_audio) is its first element when non-empty
and null when empty. -/
theorem primary_media_is_first_cached (cache : CacheState) (hit : SearchHit)
    (ty : String) (i : Int) (r : ComprehensiveResult)
    (hi : hit.payload.bird_id = some i)
    (hr : create_comprehensive_result cache hit ty = some r) :
    r.images = (dictGet cache.images (some i)).getD [] ∧
    r.primary_image = r.images.head? ∧
    r.audio_clips = (dictGet cache.audio (some i)).getD [] ∧
    r.primary_audio = r.audio_clips.head? := by
  rw [create_comprehensive_result, hi] at hr
  cases hr
  simp

/-- C8 witness: a cache holding two image payloads for entity 5 yields
a result whose images are that very list and whose primary image is its
first element. -/
theorem primary_media_is_first_cached_witness :
    ∃ r, create_comprehensive_result
        ⟨[], [(some 5, [{ size := some "big" }, { size := some "small" }])], []⟩
        { payload := { bird_id := some 5 } } "image" = some r ∧
      r.images = [{ size := some "big" }, { size := some "small" }] ∧
      r.primary_image = some { size := some "big" } ∧
      r.primary_audio = none := by
  have h := primary_media_is_first_cached
    ⟨[], [(some 5, [{ size := some "big" }, { size := some "small" }])], []⟩
    { payload := { bird_id := some 5 } } "image" 5 _ rfl rfl
  exact ⟨_, rfl, by rw [h.1]; rfl, by rw [h.2.1, h.1]; rfl, by rw [h.2.2.2, h.2.2.1]; rfl⟩

/-- C9: a hit whose payload species_name is the empty string is treated
exactly like a hit with no species_name (Python `or` falls through on
falsy values): the join output is identical, and the output
species_name is the cached text record's value, defaulting to
"Unknown". -/
theorem empty_species_name_falls_back (cache : CacheState) (p : Payload)
    (score : Int) (ty : String) :
    create_comprehensive_result cache
        { payload := { p with species_name := some "" }, score := score } ty =
      create_comprehensive_result cache
        { payload := { p with species_name := none }, score := score } ty ∧
    (∀ (i : Int) (r : ComprehensiveResult), p.bird_id = some i →
      create_comprehensive_result cache
          { payload := { p with species_name := some "" }, score := score } ty = some r →
      r.species_name =
        dictGetD (dictGet cache.text (some i)) (fun q => q.species_name) "Unknown") := by
  constructor
  · cases h : p.bird_id <;> simp [create_comprehensive_result, h, pyOr]
  · intro i r hi hr
    simp only [create_comprehensive_result, hi] at hr
    cases hr
    simp [pyOr]

/-- C9 witness: entity 5 is cached with species "Wren"; a hit carrying
species_name `""` joins to species_name "Wren". -/
theorem empty_species_name_falls_back_witness :
    ∃ r, create_comprehensive_result
        ⟨[(some 5, { species_name := some "Wren" })], [], []⟩
        { payload := { bird_id := some 5, species_name := some "" }, score := 0 }
        "text" = some r ∧
      r.species_name = "Wren" := by
  refine ⟨_, rfl, ?_⟩
  rw [(empty_species_name_falls_back
      ⟨[(some 5, { species_name := some "Wren" })], [], []⟩
      { bird_id := some 5 } 0 "text").2 5 _ rfl rfl]
  rfl

/-- C10: the url field is a function of the cached text record alone —
empty when the entity id is absent from the text cache (even when the
hit's payload carries a species name, in which case the species_name
still prefers the hit's payload, so a non-"Unknown" name can coexist
with an empty url). -/
theorem url_derived_only_from_text_cache (cache : CacheState) (hit : SearchHit)
    (ty : String) (i : Int) (r : ComprehensiveResult)
    (hi : hit.payload.bird_id = some i)
    (hr : create_comprehensive_result cache hit ty = some r) :
    r.url = (match dictGet cache.text (some i) with
             | none => ""
             | some t =>
               match t.species_name with
               | none => ""
               | some sn =>
                 if sn = "" then ""
                 else "https://en.wikipedia.org/wiki/" ++ underscoreSpaces sn) ∧
    (dictGet cache.text (some i) = none →
      r.url = "" ∧ r.species_name = pyOr hit.payload.species_name "Unknown") := by
  simp only [create_comprehensive_result, hi] at hr
  cases hr
  constructor
  · cases ht : dictGet cache.text (some i) with
    | none => simp [truthy, dictGetD, ht]
    | some t =>
      cases hsn : t.species_name with
      | none => simp [truthy, dictGetD, ht, hsn]
      | some sn =>
        by_cases hz : sn = "" <;> simp [truthy, dictGetD, ht, hsn, hz]
  · intro hnone
    simp [truthy, dictGetD, hnone]

/-- C10 witness: empty text cache, hit payload carries species "Robin"
— the joined result has species_name "Robin" yet an empty url. -/
theorem url_derived_only_from_text_cache_witness :
    ∃ r, create_comprehensive_result ⟨[], [], []⟩
        { payload := { bird_id := some 5, species_name := some "Robin" }, score := 0 }
        "text" = some r ∧
      r.url = "" ∧ r.species_name = "Robin" := by
  refine ⟨_, rfl, ?_, ?_⟩
  · exact ((url_derived_only_from_text_cache ⟨[], [], []⟩
      { payload := { bird_id := some 5, species_name := some "Robin" }, score := 0 }
      "text" 5 _ rfl rfl).2 rfl).1
  · rw [((url_derived_only_from_text_cache ⟨[], [], []⟩
      { payload := { bird_id := some 5, species_name := some "Robin" }, score := 0 }
      "text" 5 _ rfl rfl).2 rfl).2]
    rfl

/-- Helper: a hit with an extractable entity id always joins to a
result carrying that id. -/
theorem create_bird_id_eq (cache : CacheState) (hit : SearchHit) (ty : String)
    (i : Int) (hi : hit.payload.bird_id = some i) :
    ∃ r, create_comprehensive_result cache hit ty = some r ∧ r.bird_id = i := by
  simp only [create_comprehensive_result, hi]
  exact ⟨_, rfl, rfl⟩

/-- C3: on hits whose entity ids are [5, 3, 5, 7, 3] in that order —
whatever their scores or other payload fields — the deduplication
yields results for ids [5, 3, 7] in that order: first occurrence wins,
input order preserved, later duplicates discarded. -/
theorem dedup_keeps_first_occurrence (cache : CacheState) (ty : String)
    (hits : List SearchHit)
    (h : hits.map (fun x => x.payload.bird_id) =
      [some 5, some 3, some 5, some 7, some 3]) :
    (get_unique_birds_from_results cache hits ty).map (fun r => r.bird_id) =
      [5, 3, 7] := by
  cases hits with
  | nil => simp at h
  | cons a t =>
  cases t with
  | nil => simp at h
  | cons b t =>
  cases t with
  | nil => simp at h
  | cons c t =>
  cases t with
  | nil => simp at h
  | cons d t =>
  cases t with
  | nil => simp at h
  | cons e t =>
  cases t with
  | cons f t => simp at h
  | nil =>
    simp only [List.map_cons, List.map_nil, List.cons.injEq, and_true] at h
    obtain ⟨h1, h2, h3, h4, h5⟩ := h
    simp [get_unique_birds_from_results, get_unique_birds_aux,
      create_comprehensive_result, h1, h2, h3, h4, h5]

/-- C3 witness: concrete hits with those ids and strictly decreasing
scores deduplicate to [5, 3, 7]. -/
theorem dedup_keeps_first_occurrence_witness :
    (get_unique_birds_from_results ⟨[], [], []⟩
        [⟨{ bird_id := some 5 }, 9⟩, ⟨{ bird_id := some 3 }, 8⟩,
         ⟨{ bird_id := some 5 }, 7⟩, ⟨{ bird_id := some 7 }, 6⟩,
         ⟨{ bird_id := some 3 }, 5⟩] "image").map (fun r => r.bird_id) =
      [5, 3, 7] :=
  dedup_keeps_first_occurrence ⟨[], [], []⟩ "image" _ rfl

/-- C4 counterexample: the audio endpoint shapes results without any
deduplication, so two raw hits for entity 5 produce two comprehensive
results for entity 5 in one response — the claim that every search
endpoint returns at most one result per distinct entity id is false. -/
theorem search_endpoints_dedup_refuted :
    (search_by_audio_results ⟨[], [], []⟩
        [⟨{ bird_id := some 5 }, 9⟩, ⟨{ bird_id := some 5 }, 7⟩]).map
      (fun r => r.bird_id) = [5, 5] ∧
    ¬ ((search_by_audio_results ⟨[], [], []⟩
        [⟨{ bird_id := some 5 }, 9⟩, ⟨{ bird_id := some 5 }, 7⟩]).map
      (fun r => r.bird_id)).Nodup :=
  ⟨rfl, by decide⟩

/-- Helper invariant for the deduplicating loop: the produced results
have pairwise-distinct entity ids, none of which was already seen. -/
theorem get_unique_birds_aux_nodup (cache : CacheState) (ty : String) :
    ∀ (hits : List SearchHit) (seen : List Int),
      ((get_unique_birds_aux cache ty seen hits).map (fun r => r.bird_id)).Nodup ∧
      ∀ b ∈ (get_unique_birds_aux cache ty seen hits).map (fun r => r.bird_id),
        b ∉ seen
  | [], seen => by simp [get_unique_birds_aux]
  | h :: rest, seen => by
    cases hb : h.payload.bird_id with
    | none =>
      simpa [get_unique_birds_aux, hb] using
        get_unique_birds_aux_nodup cache ty rest seen
    | some bid =>
      by_cases hmem : bid ∈ seen
      · simpa [get_unique_birds_aux, hb, hmem] using
          get_unique_birds_aux_nodup cache ty rest seen
      · obtain ⟨r, hr, hrb⟩ := create_bird_id_eq cache h ty bid hb
        obtain ⟨ihn, ihs⟩ := get_unique_birds_aux_nodup cache ty rest (bid :: seen)
        have hstep : get_unique_birds_aux cache ty seen (h :: rest) =
            r :: get_unique_birds_aux cache ty (bid :: seen) rest := by
          simp [get_unique_birds_aux, hb, hmem, hr]
        simp only [hstep, List.map_cons]
        constructor
        · rw [List.nodup_cons]
          refine ⟨fun hc => ?_, ihn⟩
          have := ihs _ hc
          rw [hrb] at this
          exact this (List.mem_cons_self bid seen)
        · intro x hx
          rcases List.mem_cons.mp hx with rfl | hx'
          · rw [hrb]; exact hmem
          · exact fun hs => ihs x hx' (List.mem_cons_of_mem bid hs)

/-- C4 amended: only the image search endpoint deduplicates — it
over-fetches raw hits, keeps at most one comprehensive result per
distinct entity id, and truncates to the requested count; the text and
audio endpoints join every hit without deduplication. This theorem
proves the deduplication guarantee for the image endpoint's result
list. -/
theorem image_search_results_unique (cache : CacheState) (hits : List SearchHit)
    (limit : Nat) :
    ((search_by_image_results cache hits limit).map (fun r => r.bird_id)).Nodup := by
  have h := (get_unique_birds_aux_nodup cache "image" hits []).1
  have hsub : List.Sublist
      (((get_unique_birds_from_results cache hits "image").take limit).map
        (fun r => r.bird_id))
      ((get_unique_birds_from_results cache hits "image").map (fun r => r.bird_id)) :=
    List.Sublist.map _ (List.take_sublist _ _)
  exact List.Nodup.sublist hsub h

/-- C4 witness: a concrete image search with duplicate raw hits for
entity 5 still returns pairwise-distinct entity ids. -/
theorem image_search_results_unique_witness :
    ((search_by_image_results ⟨[], [], []⟩
        [⟨{ bird_id := some 5 }, 9⟩, ⟨{ bird_id := some 5 }, 7⟩] 12).map
      (fun r => r.bird_id)).Nodup :=
  image_search_results_unique ⟨[], [], []⟩
    [⟨{ bird_id := some 5 }, 9⟩, ⟨{ bird_id := some 5 }, 7⟩] 12

/-- C5 witness: refreshing twice against fixed scroll responses (one
of them failing) equals refreshing once. -/
theorem refresh_cache_idempotent_witness :
    refresh_cache (Except.ok [{ bird_id := some 1 }]) (Except.ok [])
        (Except.error "down")
        (refresh_cache (Except.ok [{ bird_id := some 1 }]) (Except.ok [])
          (Except.error "down") ⟨[], [], []⟩) =
      refresh_cache (Except.ok [{ bird_id := some 1 }]) (Except.ok [])
        (Except.error "down") ⟨[], [], []⟩ :=
  refresh_cache_idempotent (Except.ok [{ bird_id := some 1 }]) (Except.ok [])
    (Except.error "down") ⟨[], [], []⟩

/-- C6 witness: a concrete store failure yields three empty mappings. -/
theorem loaders_absorb_errors_witness :
    get_all_text_data (Except.error "connection refused") = [] ∧
    get_all_image_data (Except.error "connection refused") = [] ∧
    get_all_audio_data (Except.error "connection refused") = [] :=
  loaders_absorb_errors "connection refused"
